import Mathlib

/-!
Shallow embedding of the on-call escalation engine of the alert-relay bot
(schedule store, escalation scheduler, call attempt controller, message
splitting), translated from the Go source, together with proofs of the
specification's testable properties.
-/

namespace AlertBot

/-! ### Go `time.Parse("15:04", s)`

Faithful model of the layout parser for the `"15:04"` layout:
`stdHour` reads one or two digits (hour must be `< 24`), then the literal
`':'`, then `stdZeroMinute` reads exactly two digits (minute `< 60`), and
any trailing text is an error.  A successful parse is represented by the
minutes-since-midnight value. -/

def isDigitChar (c : Char) : Bool := '0' ≤ c && c ≤ '9'

def digitVal (c : Char) : Nat := c.toNat - '0'.toNat

/-- Go `getnum(value, fixed := false)`: one or two digits. -/
def getnumFlex : List Char → Option (Nat × List Char)
  | c1 :: c2 :: rest =>
      if isDigitChar c1 then
        if isDigitChar c2 then some (10 * digitVal c1 + digitVal c2, rest)
        else some (digitVal c1, c2 :: rest)
      else none
  | [c1] => if isDigitChar c1 then some (digitVal c1, []) else none
  | [] => none

/-- Go `getnum(value, fixed := true)`: exactly two digits. -/
def getnumFixed : List Char → Option (Nat × List Char)
  | c1 :: c2 :: rest =>
      if isDigitChar c1 && isDigitChar c2 then
        some (10 * digitVal c1 + digitVal c2, rest)
      else none
  | _ => none

def parseHMList (cs : List Char) : Option Nat :=
  match getnumFlex cs with
  | none => none
  | some (h, rest) =>
      if 24 ≤ h then none
      else
        match rest with
        | ':' :: rest2 =>
            match getnumFixed rest2 with
            | none => none
            | some (m, rest3) =>
                if 60 ≤ m then none
                else if rest3.isEmpty then some (60 * h + m) else none
        | _ => none

/-- Result of Go `time.Parse("15:04", s)`: minutes since midnight on success. -/
def parseHM (s : String) : Option Nat := parseHMList s.data

/-! ### Data model -/

/-- `Schedule` from `internal/repo/telegram_bot.go`: a time-window entry of the
on-call rota (`start_time`, `end_time`, `phone_number`). -/
structure Schedule where
  startTime : String
  endTime : String
  phoneNumber : String
deriving DecidableEq, Repr

/-- Error taxonomy of the engine (spec §7). -/
inductive Err where
  | invalidTimeFormat
  | ioError
  | noPhoneFound
  | noMoreNumbers
deriving DecidableEq, Repr

/-- `validateTimeFormat` from `internal/repo/telegram_bot.go`. -/
def validateTimeFormat (s : String) : Except Err Unit :=
  match parseHM s with
  | some _ => .ok ()
  | none => .error .invalidTimeFormat

/-! ### Schedule store (`FileScheduleRepository`)

The file's contents are modelled at the JSON-value level: `Save` writes the
value produced by `json.MarshalIndent`, `Load` decodes it the way
`json.Unmarshal` decodes into `[]Schedule` (sequential field assignment,
exact-then-case-insensitive key match, non-string value for a known field is
an error, unknown keys ignored, `null` decodes to the zero value).  `none`
stands for an absent file (`Load` then returns the empty schedule). -/

inductive Json where
  | str (s : String)
  | num (n : Int)
  | arr (xs : List Json)
  | obj (fields : List (String × Json))
  | null

/-- `json.MarshalIndent` of one `Schedule` value. -/
def marshalSchedule (s : Schedule) : Json :=
  .obj [("start_time", .str s.startTime),
        ("end_time", .str s.endTime),
        ("phone_number", .str s.phoneNumber)]

/-- `json.MarshalIndent` of a `[]Schedule` value. -/
def marshalSchedules (l : List Schedule) : Json :=
  .arr (l.map marshalSchedule)

/-- ASCII case folding of one character (the fold that matters for the
struct keys at hand). -/
def lowerChar (c : Char) : Char :=
  if 'A' ≤ c ∧ c ≤ 'Z' then Char.ofNat (c.toNat + 32) else c

def lowerKey (s : String) : String :=
  ⟨s.data.map lowerChar⟩

/-- `encoding/json` key matching: the exact field tag, or a case-insensitive
fallback. -/
def isKeyMatch (k name : String) : Bool :=
  k == name || lowerKey k == name

/-- One key/value pair of a JSON object assigned into a `Schedule` struct. -/
def applyField (acc : Schedule) (k : String) (v : Json) : Option Schedule :=
  if isKeyMatch k "start_time" then
    match v with
    | .str x => some { acc with startTime := x }
    | .null => some acc
    | _ => none
  else if isKeyMatch k "end_time" then
    match v with
    | .str x => some { acc with endTime := x }
    | .null => some acc
    | _ => none
  else if isKeyMatch k "phone_number" then
    match v with
    | .str x => some { acc with phoneNumber := x }
    | .null => some acc
    | _ => none
  else some acc

def decodeObjFields : Schedule → List (String × Json) → Option Schedule
  | acc, [] => some acc
  | acc, (k, v) :: rest =>
      match applyField acc k v with
      | none => none
      | some acc2 => decodeObjFields acc2 rest

/-- `json.Unmarshal` of one array element into a `Schedule`. -/
def unmarshalSchedule : Json → Option Schedule
  | .obj fs => decodeObjFields ⟨"", "", ""⟩ fs
  | .null => some ⟨"", "", ""⟩
  | _ => none

def unmarshalList : List Json → Option (List Schedule)
  | [] => some []
  | j :: rest =>
      match unmarshalSchedule j, unmarshalList rest with
      | some s, some l => some (s :: l)
      | _, _ => none

/-- `json.Unmarshal` into `[]Schedule`. -/
def unmarshalSchedules : Json → Option (List Schedule)
  | .null => some []
  | .arr xs => unmarshalList xs
  | _ => none

/-- `FileScheduleRepository.Load`: absent file yields the empty schedule,
undecodable contents yield an IO/decode error. -/
def Load (st : Option Json) : Except Err (List Schedule) :=
  match st with
  | none => .ok []
  | some j =>
      match unmarshalSchedules j with
      | some l => .ok l
      | none => .error .ioError

/-- `FileScheduleRepository.Save`: rewrites the file in full. -/
def Save (l : List Schedule) : Option Json :=
  some (marshalSchedules l)

/-- `ScheduleService.AddSchedule`: validate both times, load, append, save.
Returns the operation result together with the resulting file state (the
file is only touched by `Save`, so every error leaves it unchanged). -/
def AddSchedule (startTime endTime phoneNumber : String) (st : Option Json) :
    Except Err Unit × Option Json :=
  match validateTimeFormat startTime with
  | .error e => (.error e, st)
  | .ok () =>
      match validateTimeFormat endTime with
      | .error e => (.error e, st)
      | .ok () =>
          match Load st with
          | .error e => (.error e, st)
          | .ok schedules =>
              (.ok (), Save (schedules ++ [⟨startTime, endTime, phoneNumber⟩]))

/-! ### Escalation scheduler lookup (`GetPhoneNumberByTime`)

`time.Now().Format("15:04")` renders the wall-clock time of the server's
local timezone, so the service lookup depends on the server's UTC offset;
instants are modelled as seconds, offsets as signed seconds.  A failed
`time.Parse` of a stored entry is ignored in the source and yields the zero
`time.Time` (year 1), which compares after every successfully parsed layout
time (year 0); `parseFailedTime` stands for that zero value. -/

def parseFailedTime : Int := 1000000

/-- The comparison key of `time.Parse("15:04", s)` with the error ignored:
minutes since midnight in year 0 on success, the year-1 zero value on
failure. -/
def parsedOrZero (s : String) : Int :=
  match parseHM s with
  | some m => (m : Int)
  | none => parseFailedTime

/-- Minutes-of-day shown by `Format("15:04")` for instant `now` (seconds)
under UTC offset `offset` (seconds). -/
def localMinutesOfDay (now offset : Int) : Int :=
  ((now + offset).emod 86400) / 60

/-- `currentParsedTime.After(startTime) && currentParsedTime.Before(endTime)`:
strict containment of the current minutes-of-day in the entry's window. -/
def windowMatches (nowHM : Int) (s : Schedule) : Bool :=
  decide (parsedOrZero s.startTime < nowHM) &&
    decide (nowHM < parsedOrZero s.endTime)

/-- `ok && time.Since(lastCallTime) < time.Hour`: the responder had a call
marked successful less than one hour before `nowAbs`. -/
def suppressedCall (nowAbs : Int) (calls : String → Option Int) (n : String) : Bool :=
  match calls n with
  | some t => decide (nowAbs - t < 3600)
  | none => false

/-- The scan loop of `ScheduleService.GetPhoneNumberByTime`: first entry whose
window strictly contains the current time and whose responder is not inside
the one-hour success-suppression window. -/
def findPhone (nowHM nowAbs : Int) (calls : String → Option Int) :
    List Schedule → Except Err String
  | [] => .error .noPhoneFound
  | s :: rest =>
      if windowMatches nowHM s then
        if suppressedCall nowAbs calls s.phoneNumber then
          findPhone nowHM nowAbs calls rest
        else .ok s.phoneNumber
      else findPhone nowHM nowAbs calls rest

/-- `ScheduleService.GetPhoneNumberByTime` (`internal/repo/telegram_bot.go`):
uses `time.Now().Format("15:04")`, i.e. the server-local wall clock. -/
def GetPhoneNumberByTime (schedules : List Schedule)
    (calls : String → Option Int) (nowAbs serverOffset : Int) :
    Except Err String :=
  findPhone (localMinutesOfDay nowAbs serverOffset) nowAbs calls schedules

/-- The scan loop of the package-level `app.GetPhoneNumberByTime`
(`internal/app/alert_usecase.go`): no suppression, empty-string default. -/
def appFindPhone (nowHM : Int) : List Schedule → String
  | [] => ""
  | s :: rest => if windowMatches nowHM s then s.phoneNumber else appFindPhone nowHM rest

/-- `app.GetPhoneNumberByTime` (`internal/app/alert_usecase.go`): evaluates
`time.Now().In(time.FixedZone("MSK", 3*60*60))`, so the server offset that
`time.Now()` carries is overridden by the fixed MSK zone and never used. -/
def appGetPhoneNumberByTime (schedules : List Schedule)
    (nowAbs _serverOffset : Int) : String :=
  appFindPhone (localMinutesOfDay nowAbs (3 * 60 * 60)) schedules

/-! ### Call outcome state -/

/-- The transient per-responder state of `ScheduleService`
(`successfulCalls`, `callAttempts`). -/
structure CallState where
  successfulCalls : String → Option Int
  callAttempts : String → Option Nat

/-- `ScheduleService.MarkCallSuccessful`: stamp `lastSuccessAt := now` and
delete the pending attempt counter. -/
def MarkCallSuccessful (st : CallState) (now : Int) (n : String) : CallState where
  successfulCalls := fun m => if m = n then some now else st.successfulCalls m
  callAttempts := fun m => if m = n then none else st.callAttempts m

/-- `ScheduleService.GetNextPhoneNumber`: the entry after the first
occurrence of `cur` that is not in last position; otherwise the
"no more numbers to call" error. -/
def GetNextPhoneNumber : List Schedule → String → Except Err String
  | s :: t :: rest, cur =>
      if s.phoneNumber == cur then .ok t.phoneNumber
      else GetNextPhoneNumber (t :: rest) cur
  | _, _ => .error .noMoreNumbers

/-- `ScheduleService.IsMuted`: `time.Now().Before(s.muteUntil)`. -/
def IsMuted (now muteUntil : Int) : Bool :=
  decide (now < muteUntil)

/-! ### `splitLongMessage` (`internal/repo/telegram_bot.go`)

Go strings are byte slices and `len` counts bytes, so the message is
modelled as a list of bytes (`Nat` values; the newline byte is `10`). -/

def maxMsgLength : Nat := 4096

/-- The inner loop `for splitIndex > 0 && message[splitIndex] != '\n'
{ splitIndex-- }`: the largest position `≤ i` holding a newline, or `0`. -/
def findNewlineDown (message : List Nat) : Nat → Nat
  | 0 => 0
  | i + 1 =>
      if message.getD (i + 1) 0 == 10 then i + 1
      else findNewlineDown message i

theorem findNewlineDown_le (message : List Nat) (i : Nat) :
    findNewlineDown message i ≤ i := by
  induction i with
  | zero => simp [findNewlineDown]
  | succ i ih =>
      unfold findNewlineDown
      split
      · exact Nat.le_refl _
      · exact Nat.le_trans ih (Nat.le_succ i)

/-- The split position chosen for one oversized chunk: the newline found
scanning down from `maxMsgLength`, or `maxMsgLength` when none was found. -/
def splitIndexOf (message : List Nat) : Nat :=
  if findNewlineDown message maxMsgLength = 0 then maxMsgLength
  else findNewlineDown message maxMsgLength

theorem splitIndexOf_pos (message : List Nat) : 0 < splitIndexOf message := by
  unfold splitIndexOf
  split
  · simp [maxMsgLength]
  · omega

theorem splitIndexOf_le (message : List Nat) :
    splitIndexOf message ≤ maxMsgLength := by
  unfold splitIndexOf
  split
  · exact Nat.le_refl _
  · exact findNewlineDown_le message maxMsgLength

/-- `splitLongMessage`: cut an oversized message into chunks of at most
`maxMsgLength` bytes, preferring to cut just before a newline. -/
def splitLongMessage (message : List Nat) : List (List Nat) :=
  if _h : message.length ≤ maxMsgLength then [message]
  else
    message.take (splitIndexOf message) ::
      splitLongMessage (message.drop (splitIndexOf message))
termination_by message.length
decreasing_by
  have hp := splitIndexOf_pos message
  simp only [List.length_drop]
  omega

/-! ### Call Attempt Controller

Modelled from the spec: the retry/rotate driver of §4.3 is not present under
`src/` — only its scheduler collaborators (`IsMuted`, `GetNextPhoneNumber`,
the `callAttempts` counter map) and its caller wiring in `cmd/main.go`
(which passes the `ScheduleService` into `NewAlertUseCase`) remain.  The
state machine below follows the spec's words: if muted, terminate at once
with no call placed; otherwise dial the current responder up to 3 times,
rotate to the immediately following configured responder when the attempts
are exhausted, and report terminal failure once the rotation chain is
exhausted.  `transport n k` is the acknowledgement of the `k`-th attempt to
number `n`; the first component of each result is the trace of dialed
numbers, one element per placed call. -/

inductive EscalationResult where
  | terminalSuccess
  | terminalFailure
  | mutedNoop
deriving DecidableEq, Repr

def maxCallAttempts : Nat := 3

/-- Modelled from the spec: the `DIAL`/`RETRY` loop — up to `fuel` attempts
against one responder, stopping at the first acknowledged call. -/
def dialLoop (transport : String → Nat → Bool) (n : String) :
    Nat → List String × Bool
  | 0 => ([], false)
  | fuel + 1 =>
      if transport n (maxCallAttempts - (fuel + 1)) then ([n], true)
      else
        let r := dialLoop transport n fuel
        (n :: r.1, r.2)

/-- Modelled from the spec: the `ROTATE` transition — after the per-responder
attempts are exhausted, move to the next responder of the configured chain;
an empty chain is the `ExhaustedRotation` terminal failure. -/
def rotateChain (transport : String → Nat → Bool) :
    List String → List String × Bool
  | [] => ([], false)
  | n :: rest =>
      let d := dialLoop transport n maxCallAttempts
      if d.2 then (d.1, true)
      else
        let r := rotateChain transport rest
        (d.1 ++ r.1, r.2)

/-- Modelled from the spec: one escalation trigger — `SELECT_RESPONDER`
terminates as a silent no-op while muted (`IsMuted` is the source's
`time.Now().Before(muteUntil)`), and otherwise drives the dial/rotate chain
to a terminal state. -/
def escalate (transport : String → Nat → Bool) (now muteUntil : Int)
    (chain : List String) : List String × EscalationResult :=
  if IsMuted now muteUntil then ([], .mutedNoop)
  else
    let r := rotateChain transport chain
    (r.1, if r.2 then .terminalSuccess else .terminalFailure)

/-! ### Helper lemmas about the scan loop -/

theorem findPhone_cons_skip (nowHM nowAbs : Int) (calls : String → Option Int)
    (e : Schedule) (rest : List Schedule)
    (h : windowMatches nowHM e = false ∨ suppressedCall nowAbs calls e.phoneNumber = true) :
    findPhone nowHM nowAbs calls (e :: rest) = findPhone nowHM nowAbs calls rest := by
  rcases h with h | h
  · simp [findPhone, h]
  · cases hw : windowMatches nowHM e <;> simp [findPhone, hw, h]

theorem findPhone_cons_hit (nowHM nowAbs : Int) (calls : String → Option Int)
    (e : Schedule) (rest : List Schedule)
    (hm : windowMatches nowHM e = true)
    (hs : suppressedCall nowAbs calls e.phoneNumber = false) :
    findPhone nowHM nowAbs calls (e :: rest) = .ok e.phoneNumber := by
  simp [findPhone, hm, hs]

theorem findPhone_append_skip (nowHM nowAbs : Int) (calls : String → Option Int)
    (pre rest : List Schedule)
    (h : ∀ s ∈ pre, windowMatches nowHM s = false ∨ suppressedCall nowAbs calls s.phoneNumber = true) :
    findPhone nowHM nowAbs calls (pre ++ rest) = findPhone nowHM nowAbs calls rest := by
  induction pre with
  | nil => rfl
  | cons s pre ih =>
      rw [List.cons_append,
        findPhone_cons_skip nowHM nowAbs calls s (pre ++ rest) (h s (by simp))]
      exact ih (fun x hx => h x (by simp [hx]))

theorem parsedOrZero_of_parse (s : String) (m : Nat) (h : parseHM s = some m) :
    parsedOrZero s = (m : Int) := by
  simp [parsedOrZero, h]

/-- The spec §8 example rota: 09:00–17:00 → `+1`, 17:00–23:00 → `+2`. -/
def twoWindowSchedule : List Schedule :=
  [⟨"09:00", "17:00", "+1"⟩, ⟨"17:00", "23:00", "+2"⟩]

/-- A rota whose last entry's responder also occurs earlier. -/
def dupSchedule : List Schedule :=
  [⟨"09:00", "10:00", "A"⟩, ⟨"10:00", "11:00", "B"⟩, ⟨"11:00", "12:00", "A"⟩]

/-- C3: a stored entry whose window strictly contains the current time is
returned by the lookup scan (when its responder is not suppressed and no
earlier entry matches unsuppressed), and at a current time exactly equal to
the entry's start or exactly equal to its end the entry never matches. -/
theorem findPhone_strict_window
    (pre post : List Schedule) (e : Schedule) (calls : String → Option Int)
    (nowAbs : Int) (t sa eb : Nat)
    (hs : parseHM e.startTime = some sa) (he : parseHM e.endTime = some eb)
    (hpre : ∀ s ∈ pre, windowMatches (t : Int) s = false ∨
      suppressedCall nowAbs calls s.phoneNumber = true)
    (hlo : sa < t) (hhi : t < eb)
    (hsup : suppressedCall nowAbs calls e.phoneNumber = false) :
    findPhone (t : Int) nowAbs calls (pre ++ e :: post) = .ok e.phoneNumber
      ∧ windowMatches (sa : Int) e = false
      ∧ windowMatches (eb : Int) e = false := by
  have hps := parsedOrZero_of_parse e.startTime sa hs
  have hpe := parsedOrZero_of_parse e.endTime eb he
  refine ⟨?_, ?_, ?_⟩
  · rw [findPhone_append_skip (t : Int) nowAbs calls pre (e :: post) hpre]
    exact findPhone_cons_hit (t : Int) nowAbs calls e post
      (by simp [windowMatches, hps, hpe]; omega) hsup
  · simp [windowMatches, hps, hpe]
  · simp [windowMatches, hps, hpe]

theorem findPhone_strict_window_witness :
    findPhone (720 : Int) 0 (fun _ => none) twoWindowSchedule = .ok "+1"
      ∧ windowMatches (540 : Int) ⟨"09:00", "17:00", "+1"⟩ = false
      ∧ windowMatches (1020 : Int) ⟨"09:00", "17:00", "+1"⟩ = false :=
  findPhone_strict_window [] [⟨"17:00", "23:00", "+2"⟩]
    ⟨"09:00", "17:00", "+1"⟩ (fun _ => none) 0 720 540 1020
    (by decide) (by decide) (by simp) (by decide) (by decide) (by decide)

/-- C4: a responder whose last `MarkCallSuccessful` stamp is less than one
hour before the current lookup time is skipped by the scan even when its
window contains the current time — the scan continues on the remaining
entries. -/
theorem markCallSuccessful_suppresses
    (st : CallState) (tMark nowAbs nowHM : Int) (e : Schedule)
    (rest : List Schedule)
    (hpast : tMark ≤ nowAbs) (hrecent : nowAbs - tMark < 3600)
    (_hmatch : windowMatches nowHM e = true) :
    findPhone nowHM nowAbs
        (MarkCallSuccessful st tMark e.phoneNumber).successfulCalls (e :: rest)
      = findPhone nowHM nowAbs
        (MarkCallSuccessful st tMark e.phoneNumber).successfulCalls rest := by
  refine findPhone_cons_skip nowHM nowAbs _ e rest (Or.inr ?_)
  simp [suppressedCall, MarkCallSuccessful]
  omega

theorem markCallSuccessful_suppresses_witness :
    findPhone 720 5000
        (MarkCallSuccessful ⟨fun _ => none, fun _ => none⟩ 3000 "+1").successfulCalls
        twoWindowSchedule
      = findPhone 720 5000
        (MarkCallSuccessful ⟨fun _ => none, fun _ => none⟩ 3000 "+1").successfulCalls
        [⟨"17:00", "23:00", "+2"⟩] :=
  markCallSuccessful_suppresses ⟨fun _ => none, fun _ => none⟩ 3000 5000 720
    ⟨"09:00", "17:00", "+1"⟩ [⟨"17:00", "23:00", "+2"⟩]
    (by decide) (by decide) (by decide)

/-- C6: with two overlapping windows both containing the current time and
neither responder suppressed, the scan returns the earlier-added entry's
responder — the later entry never shadows it. -/
theorem findPhone_first_match_wins
    (pre mid post : List Schedule) (e1 e2 : Schedule)
    (calls : String → Option Int) (nowHM nowAbs : Int)
    (hpre : ∀ s ∈ pre, windowMatches nowHM s = false ∨
      suppressedCall nowAbs calls s.phoneNumber = true)
    (h1m : windowMatches nowHM e1 = true)
    (h1s : suppressedCall nowAbs calls e1.phoneNumber = false)
    (_h2m : windowMatches nowHM e2 = true)
    (_h2s : suppressedCall nowAbs calls e2.phoneNumber = false) :
    findPhone nowHM nowAbs calls (pre ++ e1 :: (mid ++ e2 :: post))
      = .ok e1.phoneNumber := by
  rw [findPhone_append_skip nowHM nowAbs calls pre _ hpre]
  exact findPhone_cons_hit nowHM nowAbs calls e1 _ h1m h1s

theorem findPhone_first_match_wins_witness :
    findPhone 600 0 (fun _ => none)
        [⟨"09:00", "17:00", "+1"⟩, ⟨"09:30", "11:00", "+2"⟩] = .ok "+1" :=
  findPhone_first_match_wins [] [] [] ⟨"09:00", "17:00", "+1"⟩
    ⟨"09:30", "11:00", "+2"⟩ (fun _ => none) 600 0
    (by simp) (by decide) (by decide) (by decide) (by decide)

/-- C5 counterexample: the `ScheduleService` lookup reads the server-local
wall clock, so at the same instant (12:00 UTC) a server at UTC+0 resolves
`+1` while a server at UTC+6 resolves `+2` — the resolved responder is not
independent of the server timezone. -/
theorem getPhoneNumberByTime_server_tz_dependent :
    GetPhoneNumberByTime twoWindowSchedule (fun _ => none) 43200 0 = .ok "+1"
      ∧ GetPhoneNumberByTime twoWindowSchedule (fun _ => none) 43200 21600 = .ok "+2"
      ∧ (Except.ok "+1" : Except Err String) ≠ .ok "+2" := by
  refine ⟨rfl, rfl, ?_⟩
  intro h
  injection h with h2
  exact absurd h2 (by decide)

/-- C5 amended: the dispatch-path lookup (`app.GetPhoneNumberByTime`)
evaluates the current instant in the fixed MSK zone (UTC+3), so its result
is the same under every server timezone — at 15:00 UTC (18:00 MSK) the spec
§8 rota resolves `+2` — while the `ScheduleService` lookup evaluates the
server-local wall clock and may resolve differently (see the
counterexample). -/
theorem appGetPhoneNumberByTime_fixed_msk :
    (∀ (schedules : List Schedule) (nowAbs o1 o2 : Int),
        appGetPhoneNumberByTime schedules nowAbs o1
          = appGetPhoneNumberByTime schedules nowAbs o2)
      ∧ appGetPhoneNumberByTime twoWindowSchedule 54000 0 = "+2" :=
  ⟨fun _ _ _ _ => rfl, rfl⟩

/-- C7 counterexample: when the last entry's responder also occurs earlier
in the rota, `GetNextPhoneNumber` called with it does not fail — it returns
the entry after the earlier occurrence. -/
theorem getNextPhoneNumber_duplicate_last :
    (dupSchedule.getLast?).map Schedule.phoneNumber = some "A"
      ∧ GetNextPhoneNumber dupSchedule "A" = .ok "B" :=
  ⟨rfl, rfl⟩

/-- C7 amended: `GetNextPhoneNumber` fails when called with a responder
whose only occurrence is the last entry, fails when called with a number
that appears in no entry, and for a number whose first occurrence is at a
non-last position returns the immediately following entry's responder. -/
theorem getNextPhoneNumber_rotation (cur : String) :
    (∀ (init : List Schedule) (lastE : Schedule),
        (∀ s ∈ init, s.phoneNumber ≠ cur) → lastE.phoneNumber = cur →
        GetNextPhoneNumber (init ++ [lastE]) cur = .error .noMoreNumbers)
      ∧ (∀ sched : List Schedule, (∀ s ∈ sched, s.phoneNumber ≠ cur) →
          GetNextPhoneNumber sched cur = .error .noMoreNumbers)
      ∧ (∀ (pre : List Schedule) (e f : Schedule) (rest : List Schedule),
          (∀ s ∈ pre, s.phoneNumber ≠ cur) → e.phoneNumber = cur →
          GetNextPhoneNumber (pre ++ e :: f :: rest) cur = .ok f.phoneNumber) := by
  have skip : ∀ (s : Schedule) (rest : List Schedule), s.phoneNumber ≠ cur →
      GetNextPhoneNumber (s :: rest) cur = GetNextPhoneNumber rest cur := by
    intro s rest hne
    cases rest with
    | nil => rfl
    | cons t rr => simp [GetNextPhoneNumber, hne]
  refine ⟨?_, ?_, ?_⟩
  · intro init lastE hinit _hlast
    induction init with
    | nil => rfl
    | cons s init ih =>
        rw [List.cons_append, skip s _ (hinit s (by simp))]
        exact ih (fun x hx => hinit x (by simp [hx]))
  · intro sched hall
    induction sched with
    | nil => rfl
    | cons s sched ih =>
        rw [skip s _ (hall s (by simp))]
        exact ih (fun x hx => hall x (by simp [hx]))
  · intro pre e f rest hpre he
    induction pre with
    | nil => simp [GetNextPhoneNumber, he]
    | cons s pre ih =>
        rw [List.cons_append, skip s _ (hpre s (by simp))]
        exact ih (fun x hx => hpre x (by simp [hx]))

theorem getNextPhoneNumber_rotation_witness :
    GetNextPhoneNumber twoWindowSchedule "+2" = .error .noMoreNumbers
      ∧ GetNextPhoneNumber twoWindowSchedule "+9" = .error .noMoreNumbers
      ∧ GetNextPhoneNumber twoWindowSchedule "+1" = .ok "+2" :=
  ⟨(getNextPhoneNumber_rotation "+2").1 [⟨"09:00", "17:00", "+1"⟩]
      ⟨"17:00", "23:00", "+2"⟩ (by decide) (by decide),
    (getNextPhoneNumber_rotation "+9").2.1 twoWindowSchedule (by decide),
    (getNextPhoneNumber_rotation "+1").2.2 [] ⟨"09:00", "17:00", "+1"⟩
      ⟨"17:00", "23:00", "+2"⟩ [] (by simp) (by decide)⟩

/-! ### Store round-trip -/

theorem unmarshalSchedule_marshal (s : Schedule) :
    unmarshalSchedule (marshalSchedule s) = some s := by
  cases s
  simp [unmarshalSchedule, marshalSchedule, decodeObjFields, applyField,
    show isKeyMatch "start_time" "start_time" = true from by decide,
    show isKeyMatch "end_time" "start_time" = false from by decide,
    show isKeyMatch "end_time" "end_time" = true from by decide,
    show isKeyMatch "phone_number" "start_time" = false from by decide,
    show isKeyMatch "phone_number" "end_time" = false from by decide,
    show isKeyMatch "phone_number" "phone_number" = true from by decide]

theorem unmarshalList_marshal (l : List Schedule) :
    unmarshalList (l.map marshalSchedule) = some l := by
  induction l with
  | nil => rfl
  | cons s l ih =>
      simp [unmarshalList, unmarshalSchedule_marshal, ih]

theorem Load_Save (l : List Schedule) : Load (Save l) = .ok l := by
  simp [Load, Save, unmarshalSchedules, marshalSchedules, unmarshalList_marshal]

/-- C8: adding an entry with valid `HH:MM` start/end times to a loadable
store succeeds, and a subsequent load yields the previous sequence with the
new entry appended at the end — insertion order survives the store
round-trip. -/
theorem addSchedule_appends
    (startTime endTime phoneNumber : String) (st : Option Json)
    (prev : List Schedule) (sa eb : Nat)
    (hs : parseHM startTime = some sa) (he : parseHM endTime = some eb)
    (hl : Load st = .ok prev) :
    (AddSchedule startTime endTime phoneNumber st).1 = .ok ()
      ∧ Load (AddSchedule startTime endTime phoneNumber st).2
        = .ok (prev ++ [⟨startTime, endTime, phoneNumber⟩]) := by
  simp [AddSchedule, validateTimeFormat, hs, he, hl, Load_Save]

theorem addSchedule_appends_witness :
    (AddSchedule "23:00" "23:59" "+3" (Save twoWindowSchedule)).1 = .ok ()
      ∧ Load (AddSchedule "23:00" "23:59" "+3" (Save twoWindowSchedule)).2
        = .ok (twoWindowSchedule ++ [⟨"23:00", "23:59", "+3"⟩]) :=
  addSchedule_appends "23:00" "23:59" "+3" (Save twoWindowSchedule)
    twoWindowSchedule 1380 1439 (by decide) (by decide)
    (Load_Save twoWindowSchedule)

/-- C9: when the start or the end string is not a valid `HH:MM` time,
`AddSchedule` fails with the invalid-time-format error and the persisted
file state is returned unchanged — no entry is added. -/
theorem addSchedule_invalid_time
    (startTime endTime phoneNumber : String) (st : Option Json)
    (h : parseHM startTime = none ∨ parseHM endTime = none) :
    AddSchedule startTime endTime phoneNumber st
      = (.error .invalidTimeFormat, st) := by
  rcases h with h | h
  · simp [AddSchedule, validateTimeFormat, h]
  · cases hs : parseHM startTime <;>
      simp [AddSchedule, validateTimeFormat, h, hs]

theorem addSchedule_invalid_time_witness :
    AddSchedule "25:00" "17:00" "+1" (Save twoWindowSchedule)
        = (.error .invalidTimeFormat, Save twoWindowSchedule)
      ∧ AddSchedule "09:00" "17:60" "+1" none
        = (.error .invalidTimeFormat, none) :=
  ⟨addSchedule_invalid_time "25:00" "17:00" "+1" (Save twoWindowSchedule)
      (Or.inl (by decide)),
    addSchedule_invalid_time "09:00" "17:60" "+1" none
      (Or.inr (by decide))⟩

/-- C10: the chunks produced by `splitLongMessage` concatenate back to
exactly the original message, and every chunk is at most `maxMsgLength`
(4096) bytes long — so `SendMessage`, which submits precisely these chunks,
never submits one over the Telegram limit. -/
theorem splitLongMessage_join_bound (message : List Nat) :
    (splitLongMessage message).flatten = message
      ∧ ∀ c ∈ splitLongMessage message, c.length ≤ maxMsgLength := by
  induction message using splitLongMessage.induct with
  | case1 message h =>
      rw [splitLongMessage, dif_pos h]
      constructor
      · simp
      · intro c hc
        simp at hc
        simpa [hc] using h
  | case2 message h ih =>
      rw [splitLongMessage, dif_neg h]
      constructor
      · simp [List.flatten, ih.1]
      · intro c hc
        rcases List.mem_cons.mp hc with hc | hc
        · subst hc
          calc (message.take (splitIndexOf message)).length
              ≤ splitIndexOf message := by simp
            _ ≤ maxMsgLength := splitIndexOf_le message
        · exact ih.2 c hc

theorem splitLongMessage_join_bound_witness :
    (splitLongMessage [72, 10, 105]).flatten = [72, 10, 105]
      ∧ [72, 10, 105].length ≤ maxMsgLength :=
  ⟨(splitLongMessage_join_bound [72, 10, 105]).1,
    (splitLongMessage_join_bound [72, 10, 105]).2 [72, 10, 105]
      (by rw [splitLongMessage, dif_pos (by norm_num [maxMsgLength])]; simp)⟩

/-! ### Controller lemmas -/

theorem dialLoop_all_fail (transport : String → Nat → Bool) (n : String)
    (fuel : Nat) (hfail : ∀ k, transport n k = false) :
    dialLoop transport n fuel = (List.replicate fuel n, false) := by
  induction fuel with
  | zero => rfl
  | succ fuel ih =>
      simp [dialLoop, hfail, ih, List.replicate_succ]

theorem rotateChain_all_fail (transport : String → Nat → Bool)
    (chain : List String) (hfail : ∀ n k, transport n k = false) :
    rotateChain transport chain
      = ((chain.map (fun n => List.replicate maxCallAttempts n)).flatten, false) := by
  induction chain with
  | nil => rfl
  | cons n rest ih =>
      simp [rotateChain, dialLoop_all_fail transport n maxCallAttempts (hfail n), ih]

/-- C1: against a transport that always fails, the escalation dials each
responder of the rotation chain exactly 3 times in order (the call trace is
three copies of each responder), and once the chain is exhausted it
terminates with a reported failure — the run is a total function of the
finite chain, never an unbounded loop. -/
theorem escalate_exhausts_rotation
    (transport : String → Nat → Bool) (now muteUntil : Int)
    (chain : List String)
    (hmute : muteUntil ≤ now)
    (hfail : ∀ n k, transport n k = false) :
    escalate transport now muteUntil chain
      = ((chain.map (fun n => List.replicate maxCallAttempts n)).flatten,
          EscalationResult.terminalFailure) := by
  have hnm : IsMuted now muteUntil = false := by
    simp [IsMuted]; omega
  simp [escalate, hnm, rotateChain_all_fail transport chain hfail]

theorem escalate_exhausts_rotation_witness :
    escalate (fun _ _ => false) 7 5 ["A", "B"]
      = (["A", "A", "A", "B", "B", "B"], EscalationResult.terminalFailure) :=
  escalate_exhausts_rotation (fun _ _ => false) 7 5 ["A", "B"]
    (by decide) (fun _ _ => rfl)

/-- C2: while the mute window is active (`now < muteUntil`, the source's
`IsMuted`), an escalation trigger places zero outbound calls and completes
as the silent no-op; once `muteUntil` has elapsed the trigger drives the
normal dial/rotate chain again. -/
theorem escalate_mute_gate
    (transport : String → Nat → Bool) (now muteUntil : Int)
    (chain : List String) :
    (now < muteUntil →
        escalate transport now muteUntil chain = ([], .mutedNoop))
      ∧ (muteUntil ≤ now →
          escalate transport now muteUntil chain
            = ((rotateChain transport chain).1,
                if (rotateChain transport chain).2 then .terminalSuccess
                else .terminalFailure)) := by
  constructor
  · intro h
    simp [escalate, IsMuted, h]
  · intro h
    have hnm : IsMuted now muteUntil = false := by
      simp [IsMuted]; omega
    simp [escalate, hnm]

theorem escalate_mute_gate_witness :
    escalate (fun _ _ => false) 1 5 ["A"] = ([], .mutedNoop)
      ∧ escalate (fun _ _ => false) 7 5 ["A"]
        = (["A", "A", "A"], EscalationResult.terminalFailure) :=
  ⟨(escalate_mute_gate (fun _ _ => false) 1 5 ["A"]).1 (by decide),
    (escalate_mute_gate (fun _ _ => false) 7 5 ["A"]).2 (by decide)⟩

end AlertBot
